import Mathlib

/-!
# Verification of the VoteTrackerPlus core against its specification

Shallow embedding of the core operations of the VoteTrackerPlus
repository:

* `src/src/vtp/ops/accept_ballot_operation.py`
  (`AcceptBallotOperation.create_ballot_receipt`,
  `AcceptBallotOperation.checkout_new_contest_branch`,
  `AcceptBallotOperation.run`),
* `src/src/vtp/ops/merge_contests_operation.py`
  (`MergeContestsOperation.randomly_merge_contests`),
* `src/bin/contest.py` (`Contest.check_syntax`, `Contest.__init__`).

Randomness (`random.shuffle`, `random.randint`, `random.randrange`,
`secrets.token_hex`) and git outcomes are externalized as explicit
parameters of the Lean functions, so that every definition is a
computable function of its inputs.  Python exceptions are modelled with
`Except` / `Option` / explicit error constructors.
-/

namespace VTP

/-! ## Receipt builder: `AcceptBallotOperation.create_ballot_receipt`

The Python function receives `contest_receipts` (an insertion-ordered
dict mapping contest uid to the voter's digest) and `unmerged_cvrs`
(the pending-pool snapshot, mapping uid to the git-log-ordered list of
`{digest, payload}` entries).  We embed `contest_receipts` as an
ordered list of (uid, digest) pairs and the pool as a partial map from
uid to a list of digests (only the `digest` field of the pool entries
is ever read).  The in-place `random.shuffle` is externalized: the
embedding receives the pool as it stands after the shuffles (shuffling
changes neither membership of a uid nor the length of its list, which
is all the degraded-pool check reads).  `voters_row` (in Python
`random.randint(1, BALLOT_RECEIPT_ROWS)`) and the constant
`BALLOT_RECEIPT_ROWS` are passed explicitly.
-/

/-- One cell of a receipt data row.  The Python code appends strings to
the row; the constructor records which branch of the `inner_loop` body
produced the cell: `digest d` for an actual digest string,
`insufficient` for the literal sentinel `"INSUFFICIENT_CVRS"`, and
`indexError` for the (unguarded) Python `IndexError` raised when
`unmerged_cvrs[uid][row]` is evaluated with `row == len(...)` (the
code's bound checks use `>` where `>=` would be needed). -/
inductive Cell where
  | insufficient : Cell
  | indexError : Cell
  | digest (d : String) : Cell
  deriving DecidableEq, Repr

/-- The `skip_receipt` flag computed by the first loop of
`create_ballot_receipt` (lines 253-267): true iff some uid of
`contest_receipts` is absent from `unmerged_cvrs` or has fewer than
`BALLOT_RECEIPT_ROWS` pool entries. -/
def skip_receipt (contest_receipts : List (String × String))
    (unmerged_cvrs : String → Option (List String)) (rows : Nat) : Bool :=
  contest_receipts.any (fun p =>
    match unmerged_cvrs p.1 with
    | none => true
    | some l => l.length < rows)

/-- One non-voter-row cell of the receipt, mirroring the body of the
column loop in `inner_loop` (lines 306-325): sentinel when the uid is
missing from the pool or `row > len(pool)`; otherwise the pool digest
at `row`, except that a collision with the voter's own digest is
replaced by the pool digest at `voters_row - 1` (itself guarded by
`voters_row - 1 > len(pool)`).  `indexError` marks the positions where
Python would raise `IndexError` (index equal to the list length slips
past the `>` guards). -/
def receiptCell (unmerged_cvrs : String → Option (List String))
    (voters_row row : Nat) (uid d : String) : Cell :=
  match unmerged_cvrs uid with
  | none => Cell.insufficient
  | some l =>
    if l.length < row then Cell.insufficient
    else
      match l.get? row with
      | none => Cell.indexError
      | some pd =>
        if d = pd then
          if l.length < voters_row - 1 then Cell.insufficient
          else
            match l.get? (voters_row - 1) with
            | none => Cell.indexError
            | some sub => Cell.digest sub
        else Cell.digest pd

/-- One data row of the receipt: the voter's own digests at
`row = voters_row - 1`, otherwise one `receiptCell` per column
(lines 299-326). -/
def receiptRow (contest_receipts : List (String × String))
    (unmerged_cvrs : String → Option (List String))
    (voters_row row : Nat) : List Cell :=
  if row = voters_row - 1 then
    contest_receipts.map (fun p => Cell.digest p.2)
  else
    contest_receipts.map (fun p => receiptCell unmerged_cvrs voters_row row p.1 p.2)

/-- The `BALLOT_RECEIPT_ROWS` data rows appended by `inner_loop`
(the header row of column labels, appended before the loop, is not
included here). -/
def inner_loop (contest_receipts : List (String × String))
    (unmerged_cvrs : String → Option (List String))
    (voters_row rows : Nat) : List (List Cell) :=
  (List.range rows).map (receiptRow contest_receipts unmerged_cvrs voters_row)

/-- `create_ballot_receipt`, data rows only: returns
`([], 0, "")` when the degraded-pool check trips (lines 269-271),
otherwise the `BALLOT_RECEIPT_ROWS` data rows together with
`voters_row` and the written receipt file path.  The degraded return is
a plain value: the Python path emits warnings and raises no
exception. -/
def create_ballot_receipt (contest_receipts : List (String × String))
    (unmerged_cvrs : String → Option (List String))
    (rows voters_row : Nat) (receipt_file : String) :
    List (List Cell) × Nat × String :=
  if skip_receipt contest_receipts unmerged_cvrs rows then
    ([], 0, "")
  else
    (inner_loop contest_receipts unmerged_cvrs voters_row rows, voters_row, receipt_file)

/-! ## Merge engine: `MergeContestsOperation.randomly_merge_contests`

Lines 129-157 of `src/src/vtp/ops/merge_contests_operation.py`.  The
per-uid `batch` of pending CVR branches is a Lean list; the threshold
`minimum_cast_cache` (k) and the `flush` flag are explicit; the
stream of `random.randrange(len(batch))` draws is externalized as a
function from loop step to a natural number, reduced modulo the
current batch length (Python's draw is always `< len(batch)`, and any
valid draw equals its own residue).  `merge_contest_branch` only
touches git state, so a merge step is modelled by removing the picked
branch from the batch; the function returns the number of merged
branches (the Python return value) together with the remaining
batch. -/

/-- The `count` of branches that `randomly_merge_contests` decides to
merge, from the `if`-ladder at lines 137-146: with `n = len(batch)`
and `k = minimum_cast_cache`, `n ≤ k` gives `n` under `flush` and `0`
(early return) otherwise; `n > k` always gives `n - k`. -/
def mergeCount (n k : Nat) (flush : Bool) : Nat :=
  if n ≤ k then (if flush then n else 0) else n - k

/-- The `while loop:` body (lines 149-155): `count` iterations, each
deleting the randomly picked index from the batch. -/
def mergeLoop (picks : Nat → Nat) : Nat → List String → List String
  | 0, batch => batch
  | c + 1, batch =>
      mergeLoop (fun i => picks (i + 1)) c (batch.eraseIdx (picks 0 % batch.length))

/-- `randomly_merge_contests`: returns the Python return value
(`count`, the number of branches merged for this uid group) and the
remaining batch. -/
def randomly_merge_contests (k : Nat) (flush : Bool) (picks : Nat → Nat)
    (batch : List String) : Nat × List String :=
  (mergeCount batch.length k flush,
   mergeLoop picks (mergeCount batch.length k flush) batch)

/-! ### Git-level merge state: `MergeContestsOperation.merge_contest_branch`

`merge_contest_branch` (lines 40-127) first runs `git diff-tree` on
the branch tip; when that returns no files it logs an error and
returns without merging and without deleting the branch (the
empty-diff skip at lines 57-63).  Otherwise it performs the no-ff
merge, overwrites the payload with a fresh witness, commits, pushes
main, and deletes the branch (remote, and also local when the branch
was a local one), removing it from the enumeration of any later run.
The caller `randomly_merge_contests` removes the picked branch from
its in-memory batch (`del batch[pick]`) and counts it in either case.
The embedding keeps, per uid group, the branches still present in git
and the number of merge commits pushed to main; whether a branch tip
has an empty diff-tree is externalized as a predicate. -/

/-- Per-uid git state seen by the merge engine: the pending branches a
run would enumerate, and the number of merge commits pushed to main
for this group. -/
structure MergeState where
  pool : List String
  mainMerges : Nat
  deriving DecidableEq, Repr

/-- Effect of `merge_contest_branch` on the git state: an empty
diff-tree skips, leaving git untouched (the branch survives);
otherwise the branch is merged into main and deleted. -/
def merge_contest_branch (emptyDiff : String → Bool) (b : String)
    (st : MergeState) : MergeState :=
  if emptyDiff b then st
  else { pool := st.pool.erase b, mainMerges := st.mainMerges + 1 }

/-- The merge loop of `randomly_merge_contests` over the git state:
each of the `count` iterations picks a random remaining index, calls
`merge_contest_branch` on that branch, and deletes it from the
in-memory batch — also when the branch was skipped with an empty
diff.  Python's `random.randrange(len(batch))` keeps the pick below
the batch length, so the `getD` default is never consulted in a run of
the program. -/
def mergeLoopG (emptyDiff : String → Bool) (picks : Nat → Nat) :
    Nat → List String → MergeState → List String × MergeState
  | 0, batch, st => (batch, st)
  | c + 1, batch, st =>
      mergeLoopG emptyDiff (fun j => picks (j + 1)) c
        (batch.eraseIdx (picks 0 % batch.length))
        (merge_contest_branch emptyDiff
          (batch.getD (picks 0 % batch.length) "") st)

/-- One merge-engine run over a uid group at the git level: the batch
is enumerated from the branches pending in git, the merge decision is
`mergeCount`, and the loop updates the git state; returns the counted
merges (the Python return value) and the resulting git state. -/
def mergeRun (k : Nat) (flush : Bool) (emptyDiff : String → Bool)
    (picks : Nat → Nat) (st : MergeState) : Nat × MergeState :=
  (mergeCount st.pool.length k flush,
   (mergeLoopG emptyDiff picks (mergeCount st.pool.length k flush) st.pool st).2)

/-! ## Contest schema: `src/bin/contest.py`

`Contest._keys` together with `Contest.check_syntax` and the `max`
handling of `Contest.__init__`.  A contest blob is embedded as its
single top-level name plus the key/value entries of the top-level
value, with values restricted to the shapes the checked code reads:
numbers, strings, and an opaque constructor for everything else. -/

/-- `Contest._keys` (lines 27-28): the legitimate contest keys. -/
def contest_keys : List String :=
  ["candidates", "question", "tally", "win-by", "max", "write-in", "selection"]

/-- A JSON value as far as `Contest.__init__` inspects one. -/
inductive JVal where
  | jnum (n : Int) : JVal
  | jstr (s : String) : JVal
  | jother : JVal
  deriving DecidableEq, Repr

/-- A contest blob: one top-level key (the contest name) whose value is
a key/value mapping, embedded as an association list in key order. -/
structure ContestBlob where
  name : String
  value : List (String × JVal)
  deriving DecidableEq, Repr

/-- Python `key in dict` / `dict[key]` on the blob's value. -/
def lookupKey (v : List (String × JVal)) (k : String) : Option JVal :=
  (v.find? (fun p => p.1 == k)).map (fun p => p.2)

/-- `Contest.check_syntax` (lines 30-41): raises `KeyError` on the
first key of the top-level value that is not in `Contest._keys`,
otherwise returns the contest name. -/
def checkSyntax (b : ContestBlob) : Except String String :=
  match b.value.find? (fun p => !(contest_keys.contains p.1)) with
  | some p => Except.error ("KeyError: " ++ p.1)
  | none => Except.ok b.name

/-- The `max` handling of `Contest.__init__` (lines 49-56), run after
`check_syntax` has passed: if `max` is absent then reading
`self.contest['tally']` raises `KeyError` when `tally` is absent, and
`max` defaults to `1` when the tally value equals `"plurality"`; then
`self.contest['max'] < 1` raises `TypeError` on a non-numeric `max`
and `ValueError` when the value is below one. -/
def contestInitMax (v : List (String × JVal)) :
    Except String (List (String × JVal)) :=
  match lookupKey v "max" with
  | none =>
    match lookupKey v "tally" with
    | none => Except.error "KeyError: tally"
    | some t =>
      if t = JVal.jstr "plurality" then
        Except.ok (v ++ [("max", JVal.jnum 1)])
      else
        Except.ok v
  | some (JVal.jnum m) =>
      if m < 1 then
        Except.error "ValueError: Illegal value for max - must be greater than 0"
      else Except.ok v
  | some _ => Except.error "TypeError: comparison of non-number max"

/-- `Contest.__init__` on the blob's value: `check_syntax`, then the
`max` defaulting and sanity check; returns the (possibly defaulted)
contest value. -/
def contestInit (b : ContestBlob) : Except String (List (String × JVal)) :=
  match checkSyntax b with
  | Except.error e => Except.error e
  | Except.ok _ => contestInitMax b.value

/-! ## Submission flow: `AcceptBallotOperation.checkout_new_contest_branch`
and the contest loop of `AcceptBallotOperation.run`

Lines 83-145 and 412-515 of
`src/src/vtp/ops/accept_ballot_operation.py`.  `secrets.token_hex(5)`
draws are externalized as a function from attempt number to the token
string, and git create/push outcomes as a function from attempt number
to an outcome.  `Globals.get("CONTEST_FILE_SUBDIR")` (the string
`"CVRs"`) is the `subdir` parameter. -/

/-- Outcome of one attempt of the create-then-push sequence inside
`checkout_new_contest_branch`. -/
inductive AttemptOutcome where
  | createFail : AttemptOutcome
  | pushFail : AttemptOutcome
  | ok : AttemptOutcome
  deriving DecidableEq, Repr

/-- The branch name used by attempt `i` of
`checkout_new_contest_branch`: the initial name (line 95-101) is
`subdir ++ "/" ++ uid ++ "/" ++ token`, while every regenerated name
(line 141) is `uid ++ "/" ++ token` — the code drops the
`CONTEST_FILE_SUBDIR` component on retry. -/
def attemptBranchName (subdir uid : String) (tok : Nat → String) : Nat → String
  | 0 => subdir ++ "/" ++ uid ++ "/" ++ tok 0
  | i + 1 => uid ++ "/" ++ tok (i + 1)

/-- `checkout_new_contest_branch` (lines 83-145): three attempts, each
checking out a new local branch and pushing it; a create failure
retries directly, a push failure deletes the just-created local branch
(`git branch -D`) and retries; a third failure raises `RuntimeError`
(`none`).  Each attempt leaves the set of surviving local branches
unchanged unless it succeeds, in which case the new branch is local
and pushed. -/
def checkout_new_contest_branch (subdir uid : String) (tok : Nat → String)
    (out : Nat → AttemptOutcome) : Option String :=
  match out 0 with
  | AttemptOutcome.ok => some (attemptBranchName subdir uid tok 0)
  | _ =>
    match out 1 with
    | AttemptOutcome.ok => some (attemptBranchName subdir uid tok 1)
    | _ =>
      match out 2 with
      | AttemptOutcome.ok => some (attemptBranchName subdir uid tok 2)
      | _ => none

/-- Events of the final phase of `AcceptBallotOperation.run`: the
per-branch `git push origin <branch>` of the loop at lines 463-475 and
the `create_ballot_receipt` call at line 507. -/
inductive Ev where
  | pushBranch (b : String) : Ev
  | receiptEv : Ev
  deriving DecidableEq, Repr

/-- Result of the contest-submission portion of
`AcceptBallotOperation.run`: the surviving local branches, the
successfully created branch names (`branches` in the Python code, in
creation order), the final-phase event trace, and whether the run
aborted with the `RuntimeError` from a failed
`checkout_new_contest_branch`. -/
structure RunState where
  localBranches : List String
  branches : List String
  events : List Ev
  failed : Bool
  deriving DecidableEq, Repr

/-- The contest loop of `run` (lines 429-459): for each contest uid in
ballot order, `checkout_new_contest_branch`; a `RuntimeError`
propagates out of the loop with the branches created so far still
present as local branches (no enclosing handler deletes them). -/
def acceptLoop (subdir : String) (tok : String → Nat → String)
    (out : String → Nat → AttemptOutcome) :
    List String → List String → Except (List String) (List String)
  | [], acc => Except.ok acc
  | uid :: rest, acc =>
    match checkout_new_contest_branch subdir uid (tok uid) (out uid) with
    | some b => acceptLoop subdir tok out rest (acc ++ [b])
    | none => Except.error acc

/-- The submission portion of `AcceptBallotOperation.run` after ballot
validation: the contest loop, then — only when every contest
succeeded — the push-and-delete-local loop over `branches`
(lines 463-475) followed by the `create_ballot_receipt` call
(line 507).  On abort every branch created for an earlier contest is
still a local branch and no receipt event occurs. -/
def acceptBallot (subdir : String) (tok : String → Nat → String)
    (out : String → Nat → AttemptOutcome) (uids : List String) : RunState :=
  match acceptLoop subdir tok out uids [] with
  | Except.error acc =>
      { localBranches := acc, branches := acc, events := [], failed := true }
  | Except.ok acc =>
      { localBranches := [],
        branches := acc,
        events := acc.map Ev.pushBranch ++ [Ev.receiptEv],
        failed := false }

/-! ## Helper lemmas -/

/-- Unfolding of `checkSyntax`: success (returning the contest name)
holds exactly when every key of the top-level value is a legitimate
contest key. -/
theorem checkSyntax_ok_iff (b : ContestBlob) :
    checkSyntax b = Except.ok b.name ↔ ∀ p ∈ b.value, p.1 ∈ contest_keys := by
  unfold checkSyntax
  constructor
  · intro h p hp
    cases hfind : b.value.find? (fun p => !(contest_keys.contains p.1)) with
    | none =>
      have := List.find?_eq_none.mp hfind p hp
      simpa using this
    | some q => rw [hfind] at h; exact absurd h (by simp)
  · intro h
    have hnone : b.value.find? (fun p => !(contest_keys.contains p.1)) = none := by
      apply List.find?_eq_none.mpr
      intro p hp
      simpa using h p hp
    rw [hnone]

/-- Unfolding of `checkSyntax`: a `KeyError` is raised exactly when
some key of the top-level value is not a legitimate contest key. -/
theorem checkSyntax_error_iff (b : ContestBlob) :
    (∃ e, checkSyntax b = Except.error e) ↔ ∃ p ∈ b.value, p.1 ∉ contest_keys := by
  unfold checkSyntax
  constructor
  · intro ⟨e, he⟩
    cases hfind : b.value.find? (fun p => !(contest_keys.contains p.1)) with
    | none => rw [hfind] at he; exact absurd he (by simp)
    | some q =>
      refine ⟨q, List.mem_of_find?_eq_some hfind, ?_⟩
      have := List.find?_some hfind
      simpa using this
  · intro ⟨p, hp, hkey⟩
    cases hfind : b.value.find? (fun p => !(contest_keys.contains p.1)) with
    | none =>
      have := List.find?_eq_none.mp hfind p hp
      simp at this
      exact absurd this hkey
    | some q => exact ⟨"KeyError: " ++ q.1, rfl⟩

/-- Appending a fresh key to a contest value makes it the result of a
later lookup of that key. -/
theorem lookupKey_append_self (v : List (String × JVal)) (k : String) (x : JVal)
    (h : lookupKey v k = none) : lookupKey (v ++ [(k, x)]) k = some x := by
  unfold lookupKey at h ⊢
  rw [List.find?_append]
  cases hfind : v.find? (fun p => p.1 == k) with
  | none => simp [Option.or, List.find?]
  | some q => rw [hfind] at h; exact absurd h (by simp)

/-! ## Claim theorems -/

/-- C3 counterexample: the key `uid` belongs to the approved set the
claim asserts (the spec's ten keys), yet `Contest.check_syntax`
rejects a blob whose single top-level value carries only that key, so
the claim as stated is false at this input.  The list literal below
spells the claim's approved set; the code's actual set is
`contest_keys`. -/
theorem checkSyntax_spec_keyset_refuted :
    ("uid" ∈ ["candidates", "question", "tally", "win-by", "max", "write-in",
              "selection", "uid", "cast_branch", "cloak"]) ∧
    checkSyntax ⟨"contestA", [("uid", JVal.jstr "0001")]⟩
      = Except.error "KeyError: uid" := by
  exact ⟨by decide, rfl⟩

/-- C3 (amended): the schema check accepts a contest blob exactly when
every key of its single top-level value is drawn from the code's
approved set `{candidates, question, tally, win-by, max, write-in,
selection}` (the set `Contest._keys` of `src/bin/contest.py`, which
does not contain `uid`, `cast_branch` or `cloak`), and raises a schema
error (`KeyError`) if and only if some key outside that set is
present. -/
theorem checkSyntax_accepts_iff_keys_approved (b : ContestBlob) :
    (checkSyntax b = Except.ok b.name ↔ ∀ p ∈ b.value, p.1 ∈ contest_keys) ∧
    ((∃ e, checkSyntax b = Except.error e) ↔ ∃ p ∈ b.value, p.1 ∉ contest_keys) :=
  ⟨checkSyntax_ok_iff b, checkSyntax_error_iff b⟩

/-- C9: for a contest blob with valid keys, `Contest.__init__` fails
with a schema error when a present `max` is below one, defaults `max`
to one when `max` is absent and the tally method is plurality, and any
`max` present after successful construction is at least one. -/
theorem contestInit_max_invariant (b : ContestBlob)
    (hkeys : ∀ p ∈ b.value, p.1 ∈ contest_keys) :
    (∀ m : Int, lookupKey b.value "max" = some (JVal.jnum m) → m < 1 →
        ∃ e, contestInit b = Except.error e) ∧
    (lookupKey b.value "max" = none →
      lookupKey b.value "tally" = some (JVal.jstr "plurality") →
        contestInit b = Except.ok (b.value ++ [("max", JVal.jnum 1)])) ∧
    (∀ w m, contestInit b = Except.ok w →
        lookupKey w "max" = some (JVal.jnum m) → 1 ≤ m) := by
  have hok : checkSyntax b = Except.ok b.name := (checkSyntax_ok_iff b).mpr hkeys
  have hinit : contestInit b = contestInitMax b.value := by
    unfold contestInit; rw [hok]
  refine ⟨?_, ?_, ?_⟩
  · intro m hm hlt
    rw [hinit]
    unfold contestInitMax
    rw [hm]
    exact ⟨"ValueError: Illegal value for max - must be greater than 0", by simp [hlt]⟩
  · intro hnone htally
    rw [hinit]
    unfold contestInitMax
    rw [hnone, htally]
    simp
  · intro w m hw hmax
    rw [hinit] at hw
    unfold contestInitMax at hw
    cases hm : lookupKey b.value "max" with
    | none =>
      rw [hm] at hw
      cases ht : lookupKey b.value "tally" with
      | none => rw [ht] at hw; simp at hw
      | some t =>
        rw [ht] at hw
        by_cases hpl : t = JVal.jstr "plurality"
        · simp only [hpl, if_pos rfl] at hw
          have hw2 : w = b.value ++ [("max", JVal.jnum 1)] := by
            simpa using hw.symm
          rw [hw2, lookupKey_append_self b.value "max" (JVal.jnum 1) hm] at hmax
          have h1 : (1 : Int) = m := by
            simp only [Option.some.injEq, JVal.jnum.injEq] at hmax
            exact hmax
          omega
        · simp only [if_neg hpl] at hw
          have hw2 : w = b.value := by simpa using hw.symm
          rw [hw2, hm] at hmax
          simp at hmax
    | some x =>
      rw [hm] at hw
      cases x with
      | jnum m0 =>
        by_cases hlt : m0 < 1
        · simp [hlt] at hw
        · simp only [hlt, if_neg hlt] at hw
          have hw2 : w = b.value := by simpa using hw.symm
          rw [hw2, hm] at hmax
          have h0 : m0 = m := by
            simp only [Option.some.injEq, JVal.jnum.injEq] at hmax
            exact hmax
          omega
      | jstr s => simp at hw
      | jother => simp at hw

/-- C9 witness: a plurality contest blob without `max` constructs
successfully with `max` defaulted to one. -/
theorem contestInit_max_invariant_witness :
    contestInit ⟨"c", [("tally", JVal.jstr "plurality")]⟩
      = Except.ok [("tally", JVal.jstr "plurality"), ("max", JVal.jnum 1)] :=
  (contestInit_max_invariant ⟨"c", [("tally", JVal.jstr "plurality")]⟩
    (by decide)).2.1 (by decide) (by decide)

/-- C2: evaluation of `randomly_merge_contests` at the failing input of
the claim — a flush run over a group of two branches with threshold
one merges one branch (`n − k`), not all two as the claim (and spec)
state; `count = n` is taken only in the `n ≤ k` arm. -/
theorem randomly_merge_contests_flush_partial :
    (randomly_merge_contests 1 true (fun _ => 0) ["b1", "b2"]).1 = 1 ∧
    (randomly_merge_contests 1 true (fun _ => 0) ["b1", "b2"]).2 = ["b2"] ∧
    mergeCount 2 1 true ≠ 2 := by
  refine ⟨rfl, rfl, by decide⟩

/-- C4: evaluation of `checkout_new_contest_branch` at the failing
input — when the first push fails, the regenerated branch name of the
second attempt is `"0001/9a8b7c6d5e"`, which does not carry the
`CONTEST_FILE_SUBDIR` (`"CVRs/"`) component the claim requires of
every attempted name; the first attempt does carry it, and three
failed attempts yield the fatal `RuntimeError` (`none`). -/
theorem checkout_retry_name_drops_subdir :
    checkout_new_contest_branch "CVRs" "0001" (fun _ => "9a8b7c6d5e")
        (fun n => if n = 0 then AttemptOutcome.pushFail else AttemptOutcome.ok)
      = some "0001/9a8b7c6d5e" ∧
    ("0001/9a8b7c6d5e").take 5 ≠ "CVRs/" ∧
    (attemptBranchName "CVRs" "0001" (fun _ => "9a8b7c6d5e") 0).take 5 = "CVRs/" ∧
    checkout_new_contest_branch "CVRs" "0001" (fun _ => "9a8b7c6d5e")
        (fun _ => AttemptOutcome.pushFail) = none := by
  refine ⟨rfl, by decide, by decide, rfl⟩

/-- C7: `create_ballot_receipt` returns the degraded empty receipt
`([], 0, "")` if and only if some uid of `contest_receipts` is absent
from the pending-pool snapshot or some uid's pool has fewer than
`BALLOT_RECEIPT_ROWS` entries.  The hypothesis `1 ≤ voters_row`
reflects `random.randint(1, BALLOT_RECEIPT_ROWS)`, which never returns
zero.  The degraded path only logs warnings: in the embedding it is a
plain return value, with no error constructor involved. -/
theorem create_ballot_receipt_degraded_iff
    (contest_receipts : List (String × String))
    (unmerged_cvrs : String → Option (List String))
    (rows voters_row : Nat) (receipt_file : String)
    (h1 : 1 ≤ voters_row) :
    create_ballot_receipt contest_receipts unmerged_cvrs rows voters_row receipt_file
        = ([], 0, "") ↔
      ∃ p ∈ contest_receipts, unmerged_cvrs p.1 = none ∨
        ∃ l, unmerged_cvrs p.1 = some l ∧ l.length < rows := by
  unfold create_ballot_receipt
  cases hs : skip_receipt contest_receipts unmerged_cvrs rows with
  | true =>
    rw [if_pos rfl]
    have hr : ∃ p ∈ contest_receipts, unmerged_cvrs p.1 = none ∨
        ∃ l, unmerged_cvrs p.1 = some l ∧ l.length < rows := by
      obtain ⟨p, hp, hpred⟩ := List.any_eq_true.mp hs
      refine ⟨p, hp, ?_⟩
      cases hu : unmerged_cvrs p.1 with
      | none => exact Or.inl rfl
      | some l =>
        rw [hu] at hpred
        exact Or.inr ⟨l, rfl, by simpa using hpred⟩
    exact iff_of_true rfl hr
  | false =>
    rw [if_neg (by simp)]
    have hL : (inner_loop contest_receipts unmerged_cvrs voters_row rows,
        voters_row, receipt_file) ≠ (([] : List (List Cell)), 0, "") := by
      intro h
      have h2 := congrArg (fun t => t.2.1) h
      simp at h2
      omega
    have hR : ¬ ∃ p ∈ contest_receipts, unmerged_cvrs p.1 = none ∨
        ∃ l, unmerged_cvrs p.1 = some l ∧ l.length < rows := by
      intro ⟨p, hp, hor⟩
      have hpred := List.any_eq_false.mp hs p hp
      cases hor with
      | inl hnone => rw [hnone] at hpred; simp at hpred
      | inr hsome =>
        obtain ⟨l, hl, hlen⟩ := hsome
        rw [hl] at hpred
        simp at hpred
        omega
    exact iff_of_false hL hR

/-- C7 witness: a pool with no entry for the ballot's only uid yields
the degraded empty receipt. -/
theorem create_ballot_receipt_degraded_iff_witness :
    create_ballot_receipt [("A", "dA")] (fun _ => none) 3 1 "" = ([], 0, "") :=
  (create_ballot_receipt_degraded_iff [("A", "dA")] (fun _ => none) 3 1 ""
    (by decide)).mpr ⟨("A", "dA"), by simp, Or.inl rfl⟩

/-- The merge decision never exceeds the group size. -/
theorem mergeCount_le (n k : Nat) (flush : Bool) : mergeCount n k flush ≤ n := by
  unfold mergeCount
  split
  · split <;> omega
  · omega

/-- Each merge-loop iteration removes exactly one branch from the
batch. -/
theorem mergeLoop_length (c : Nat) (picks : Nat → Nat) (batch : List String)
    (h : c ≤ batch.length) : (mergeLoop picks c batch).length = batch.length - c := by
  induction c generalizing picks batch with
  | zero => simp [mergeLoop]
  | succ c ih =>
    have hpos : 0 < batch.length := by omega
    have hidx : picks 0 % batch.length < batch.length := Nat.mod_lt _ hpos
    have herase : (batch.eraseIdx (picks 0 % batch.length)).length = batch.length - 1 := by
      rw [List.length_eraseIdx, if_pos hidx]
    simp only [mergeLoop]
    rw [ih _ _ (by omega)]
    omega

/-- After any merge run, a uid group retains at most the threshold
`minimum_cast_cache` pending branches. -/
theorem randomly_merge_contests_remaining_le (k : Nat) (flush : Bool)
    (picks : Nat → Nat) (batch : List String) :
    (randomly_merge_contests k flush picks batch).2.length ≤ k := by
  unfold randomly_merge_contests
  simp only
  rw [mergeLoop_length _ _ _ (mergeCount_le _ _ _)]
  unfold mergeCount
  split
  · split <;> omega
  · omega

/-- C8 counterexample: a counted branch whose diff-tree is empty
survives in git while still being counted and removed from the
in-memory batch.  Over a pending pool of two distinct branches with
threshold one, the first non-flush run counts one merge but deletes
nothing (`b1` hits the empty-diff skip), leaving both branches
pending; the second non-flush run, re-enumerating the pool, counts
another merge (one, not zero) and this time actually merges a branch,
changing both the pending pool and the main branch — so the second
run is not the claimed no-op. -/
theorem merge_second_run_noop_refuted :
    (mergeRun 1 false (fun b => b == "b1") (fun _ => 0) ⟨["b1", "b2"], 0⟩).1 = 1 ∧
    (mergeRun 1 false (fun b => b == "b1") (fun _ => 0) ⟨["b1", "b2"], 0⟩).2
        = ⟨["b1", "b2"], 0⟩ ∧
    (mergeRun 1 false (fun b => b == "b1") (fun _ => 1)
        (mergeRun 1 false (fun b => b == "b1") (fun _ => 0) ⟨["b1", "b2"], 0⟩).2).1
        ≠ 0 ∧
    (mergeRun 1 false (fun b => b == "b1") (fun _ => 1)
        (mergeRun 1 false (fun b => b == "b1") (fun _ => 0) ⟨["b1", "b2"], 0⟩).2).2.pool
        ≠ (mergeRun 1 false (fun b => b == "b1") (fun _ => 0) ⟨["b1", "b2"], 0⟩).2.pool ∧
    (mergeRun 1 false (fun b => b == "b1") (fun _ => 1)
        (mergeRun 1 false (fun b => b == "b1") (fun _ => 0) ⟨["b1", "b2"], 0⟩).2).2.mainMerges
        ≠ (mergeRun 1 false (fun b => b == "b1") (fun _ => 0) ⟨["b1", "b2"], 0⟩).2.mainMerges := by
  refine ⟨rfl, rfl, by decide, by decide, by decide⟩

/-- With pairwise-distinct branch names, erasing the picked branch by
name removes exactly the picked position. -/
theorem nodup_erase_get (l : List String) (i : Nat) (h : i < l.length)
    (hnd : l.Nodup) : l.erase (l.get ⟨i, h⟩) = l.eraseIdx i := by
  induction l generalizing i with
  | nil => simp at h
  | cons a tl ih =>
    cases i with
    | zero => simp [List.eraseIdx]
    | succ i =>
      have hi : i < tl.length := by simpa using h
      have hmem : tl.get ⟨i, hi⟩ ∈ tl := List.get_mem tl i hi
      have hne : ¬(a == tl.get ⟨i, hi⟩) = true := by
        simp only [beq_iff_eq]
        intro hEq
        rw [hEq] at hnd
        exact (List.nodup_cons.mp hnd).1 hmem
      show (a :: tl).erase (tl.get ⟨i, hi⟩) = a :: tl.eraseIdx i
      rw [List.erase_cons_tail hne, ih i hi (List.nodup_cons.mp hnd).2]

/-- When no branch of a duplicate-free batch has an empty diff-tree,
the merge loop keeps the git pool identical to the in-memory batch
remainder: every counted branch really is deleted from git. -/
theorem mergeLoopG_clean (emptyDiff : String → Bool) :
    ∀ (c : Nat) (picks : Nat → Nat) (batch : List String) (st : MergeState),
      st.pool = batch → c ≤ batch.length → batch.Nodup →
      (∀ b ∈ batch, emptyDiff b = false) →
      (mergeLoopG emptyDiff picks c batch st).2.pool
          = (mergeLoopG emptyDiff picks c batch st).1 ∧
      (mergeLoopG emptyDiff picks c batch st).1.length = batch.length - c := by
  intro c
  induction c with
  | zero =>
    intro picks batch st hpool hc hnd hclean
    simp [mergeLoopG, hpool]
  | succ c ih =>
    intro picks batch st hpool hc hnd hclean
    have hpos : 0 < batch.length := by omega
    have hidx : picks 0 % batch.length < batch.length := Nat.mod_lt _ hpos
    have hb : batch.getD (picks 0 % batch.length) ""
        = batch.get ⟨picks 0 % batch.length, hidx⟩ := by
      rw [List.getD_eq_get?, List.get?_eq_get hidx]
      rfl
    have hbmem : batch.get ⟨picks 0 % batch.length, hidx⟩ ∈ batch :=
      List.get_mem batch _ hidx
    have hstep : merge_contest_branch emptyDiff
        (batch.getD (picks 0 % batch.length) "") st
          = { pool := batch.eraseIdx (picks 0 % batch.length),
              mainMerges := st.mainMerges + 1 } := by
      unfold merge_contest_branch
      rw [hb, hclean _ hbmem]
      simp only [Bool.false_eq_true, if_false]
      rw [hpool, nodup_erase_get batch _ hidx hnd]
    have herlen : (batch.eraseIdx (picks 0 % batch.length)).length
        = batch.length - 1 := by
      rw [List.length_eraseIdx, if_pos hidx]
    have hsub := List.eraseIdx_sublist batch (picks 0 % batch.length)
    obtain ⟨h1, h2⟩ := ih (fun j => picks (j + 1))
      (batch.eraseIdx (picks 0 % batch.length))
      { pool := batch.eraseIdx (picks 0 % batch.length),
        mainMerges := st.mainMerges + 1 }
      rfl (by omega) (hsub.nodup hnd) (fun b hb2 => hclean b (hsub.mem hb2))
    simp only [mergeLoopG]
    rw [hstep]
    exact ⟨h1, by rw [h2, herlen]; omega⟩

/-- A run over a pool with no empty-diff branches leaves at most the
threshold `minimum_cast_cache` branches pending in git. -/
theorem mergeRun_clean_pool_le (k : Nat) (flush : Bool)
    (emptyDiff : String → Bool) (picks : Nat → Nat) (st : MergeState)
    (hnd : st.pool.Nodup) (hclean : ∀ b ∈ st.pool, emptyDiff b = false) :
    (mergeRun k flush emptyDiff picks st).2.pool.length ≤ k := by
  obtain ⟨h1, h2⟩ := mergeLoopG_clean emptyDiff
    (mergeCount st.pool.length k flush) picks st.pool st rfl
    (mergeCount_le st.pool.length k flush) hnd hclean
  show (mergeLoopG emptyDiff picks (mergeCount st.pool.length k flush)
      st.pool st).2.pool.length ≤ k
  rw [h1, h2]
  unfold mergeCount
  split
  · split <;> omega
  · omega

/-- C8 (amended): a second non-flush merge run immediately after a
first run, with no new submissions, merges zero branches for every uid
group and leaves the group's pending branches and the main branch
unchanged, provided every branch counted by the first run was actually
merged and deleted — that is, the group's branches are distinct (git
branch names are unique) and none hits the empty-diff skip of
`merge_contest_branch`.  Without that proviso a skipped branch
survives its counted merge and the second run can merge again
(`merge_second_run_noop_refuted`). -/
theorem merge_second_run_noop_of_clean (k : Nat) (flush1 : Bool)
    (emptyDiff : String → Bool) (picks1 picks2 : Nat → Nat) (st : MergeState)
    (hnd : st.pool.Nodup) (hclean : ∀ b ∈ st.pool, emptyDiff b = false) :
    (mergeRun k false emptyDiff picks2
        (mergeRun k flush1 emptyDiff picks1 st).2).1 = 0 ∧
    (mergeRun k false emptyDiff picks2
        (mergeRun k flush1 emptyDiff picks1 st).2).2
      = (mergeRun k flush1 emptyDiff picks1 st).2 := by
  have hlen := mergeRun_clean_pool_le k flush1 emptyDiff picks1 st hnd hclean
  have hc0 : mergeCount (mergeRun k flush1 emptyDiff picks1 st).2.pool.length
      k false = 0 := by
    unfold mergeCount
    rw [if_pos hlen]
    rfl
  have hgen : ∀ s2 : MergeState, mergeCount s2.pool.length k false = 0 →
      (mergeRun k false emptyDiff picks2 s2).2 = s2 := by
    intro s2 h0
    show (mergeLoopG emptyDiff picks2 (mergeCount s2.pool.length k false)
        s2.pool s2).2 = s2
    rw [h0]
    rfl
  exact ⟨hc0, hgen _ hc0⟩

/-- C8 amended-claim witness: over a clean two-branch pool with
threshold one, the second non-flush run merges zero branches and
leaves the git state as the first run left it. -/
theorem merge_second_run_noop_of_clean_witness :
    (mergeRun 1 false (fun _ => false) (fun _ => 0)
        (mergeRun 1 false (fun _ => false) (fun _ => 0) ⟨["b1", "b2"], 0⟩).2).1 = 0 ∧
    (mergeRun 1 false (fun _ => false) (fun _ => 0)
        (mergeRun 1 false (fun _ => false) (fun _ => 0) ⟨["b1", "b2"], 0⟩).2).2
      = (mergeRun 1 false (fun _ => false) (fun _ => 0) ⟨["b1", "b2"], 0⟩).2 :=
  merge_second_run_noop_of_clean 1 false (fun _ => false) (fun _ => 0) (fun _ => 0)
    ⟨["b1", "b2"], 0⟩ (by decide) (by decide)

/-- On an abort of the contest loop, the error value of `acceptLoop`
is the accumulator extended with the branch of every contest processed
successfully before the failing one. -/
theorem acceptLoop_error_eq (subdir : String) (tok : String → Nat → String)
    (out : String → Nat → AttemptOutcome) :
    ∀ (uids acc res : List String),
      acceptLoop subdir tok out uids acc = Except.error res →
      res = acc ++ (uids.takeWhile
          (fun u => (checkout_new_contest_branch subdir u (tok u) (out u)).isSome)).filterMap
          (fun u => checkout_new_contest_branch subdir u (tok u) (out u)) := by
  intro uids
  induction uids with
  | nil => intro acc res h; simp [acceptLoop] at h
  | cons uid rest ih =>
    intro acc res h
    simp only [acceptLoop] at h
    cases hc : checkout_new_contest_branch subdir uid (tok uid) (out uid) with
    | none =>
      rw [hc] at h
      have hres : res = acc := by
        simp only [Except.error.injEq] at h
        exact h.symm
      rw [hres, List.takeWhile_cons]
      simp [hc]
    | some b =>
      rw [hc] at h
      have hres := ih (acc ++ [b]) res h
      rw [hres, List.takeWhile_cons]
      have hpred : (checkout_new_contest_branch subdir uid (tok uid) (out uid)).isSome
          = true := by rw [hc]; rfl
      rw [if_pos hpred, List.filterMap_cons, hc]
      simp

/-- C5 counterexample: a two-contest ballot whose second contest
exhausts its three branch attempts aborts with the first contest's
local branch still present — the claimed rollback of earlier local
branches does not happen. -/
theorem abort_without_rollback_refuted :
    (acceptBallot "CVRs" (fun _ _ => "9a8b7c6d5e")
        (fun u _ => if u = "0002" then AttemptOutcome.pushFail else AttemptOutcome.ok)
        ["0001", "0002"]).failed = true ∧
    (acceptBallot "CVRs" (fun _ _ => "9a8b7c6d5e")
        (fun u _ => if u = "0002" then AttemptOutcome.pushFail else AttemptOutcome.ok)
        ["0001", "0002"]).localBranches = ["CVRs/0001/9a8b7c6d5e"] ∧
    (acceptBallot "CVRs" (fun _ _ => "9a8b7c6d5e")
        (fun u _ => if u = "0002" then AttemptOutcome.pushFail else AttemptOutcome.ok)
        ["0001", "0002"]).localBranches ≠ [] := by
  refine ⟨rfl, rfl, by decide⟩

/-- C5 (amended): when ballot submission fails partway through the
per-contest loop, the operation aborts with a fatal error but rolls
back no local branch of the earlier contests: the local branches left
behind are exactly the branches created for the contests processed
before the failing one (only the failing contest's own unsuccessful
attempts were cleaned up, inside `checkout_new_contest_branch`). -/
theorem abort_keeps_earlier_branches (subdir : String)
    (tok : String → Nat → String) (out : String → Nat → AttemptOutcome)
    (uids : List String)
    (h : (acceptBallot subdir tok out uids).failed = true) :
    (acceptBallot subdir tok out uids).localBranches
        = (acceptBallot subdir tok out uids).branches ∧
    (acceptBallot subdir tok out uids).branches
        = (uids.takeWhile
            (fun u => (checkout_new_contest_branch subdir u (tok u) (out u)).isSome)).filterMap
            (fun u => checkout_new_contest_branch subdir u (tok u) (out u)) := by
  unfold acceptBallot at h ⊢
  cases hres : acceptLoop subdir tok out uids [] with
  | ok acc => rw [hres] at h; exact Bool.noConfusion h
  | error acc =>
    refine ⟨rfl, ?_⟩
    have := acceptLoop_error_eq subdir tok out uids [] acc hres
    simpa using this

/-- C5 amended-claim witness: at the concrete aborting run, the
surviving local branches coincide with the earlier contests'
branches. -/
theorem abort_keeps_earlier_branches_witness :
    (acceptBallot "CVRs" (fun _ _ => "9a8b7c6d5e")
        (fun u _ => if u = "0002" then AttemptOutcome.pushFail else AttemptOutcome.ok)
        ["0001", "0002"]).localBranches
      = (acceptBallot "CVRs" (fun _ _ => "9a8b7c6d5e")
        (fun u _ => if u = "0002" then AttemptOutcome.pushFail else AttemptOutcome.ok)
        ["0001", "0002"]).branches :=
  (abort_keeps_earlier_branches "CVRs" (fun _ _ => "9a8b7c6d5e")
    (fun u _ => if u = "0002" then AttemptOutcome.pushFail else AttemptOutcome.ok)
    ["0001", "0002"] rfl).1

/-- A successful contest loop yields exactly one branch per contest. -/
theorem acceptLoop_ok_length (subdir : String) (tok : String → Nat → String)
    (out : String → Nat → AttemptOutcome) :
    ∀ (uids acc res : List String),
      acceptLoop subdir tok out uids acc = Except.ok res →
      res.length = acc.length + uids.length := by
  intro uids
  induction uids with
  | nil =>
    intro acc res h
    simp only [acceptLoop, Except.ok.injEq] at h
    rw [← h]
    simp
  | cons uid rest ih =>
    intro acc res h
    simp only [acceptLoop] at h
    cases hc : checkout_new_contest_branch subdir uid (tok uid) (out uid) with
    | none => rw [hc] at h; exact Except.noConfusion h
    | some b =>
      rw [hc] at h
      have := ih (acc ++ [b]) res h
      simp only [List.length_append, List.length_cons, List.length_nil] at this ⊢
      omega

/-- C6: whenever a run reaches the `create_ballot_receipt` call, every
per-contest branch was pushed first — the receipt event occurs in the
trace only after the push of the last contest branch, there is one
branch per ballot contest, and each branch's push strictly precedes
the receipt event.  A run whose contest loop aborts produces no receipt
event at all. -/
theorem receipt_only_after_all_pushes (subdir : String)
    (tok : String → Nat → String) (out : String → Nat → AttemptOutcome)
    (uids : List String)
    (h : Ev.receiptEv ∈ (acceptBallot subdir tok out uids).events) :
    (acceptBallot subdir tok out uids).failed = false ∧
    (acceptBallot subdir tok out uids).branches.length = uids.length ∧
    (∀ i, (acceptBallot subdir tok out uids).events.get? i = some Ev.receiptEv →
      ∀ b ∈ (acceptBallot subdir tok out uids).branches,
        ∃ j, j < i ∧ (acceptBallot subdir tok out uids).events.get? j
            = some (Ev.pushBranch b)) := by
  unfold acceptBallot at h ⊢
  cases hres : acceptLoop subdir tok out uids [] with
  | error acc =>
    rw [hres] at h
    simp at h
  | ok acc =>
    rw [hres] at h
    refine ⟨rfl, ?_, ?_⟩
    · have := acceptLoop_ok_length subdir tok out uids [] acc hres
      simpa using this
    · intro i hi b hb
      have hub : i < acc.length + 1 := by
        by_contra hge
        push_neg at hge
        rw [List.get?_len_le (by simpa using hge)] at hi
        exact Option.noConfusion hi
      have hlb : ¬ i < acc.length := by
        intro hlt
        rw [List.get?_append (by simpa using hlt), List.get?_map] at hi
        cases hacc : acc.get? i with
        | none => rw [hacc] at hi; simp at hi
        | some x => rw [hacc] at hi; simp at hi
      obtain ⟨n, hn⟩ := List.mem_iff_get?.mp hb
      have hnlt : n < acc.length := by
        by_contra hge
        push_neg at hge
        rw [List.get?_len_le hge] at hn
        exact Option.noConfusion hn
      refine ⟨n, by omega, ?_⟩
      rw [List.get?_append (by simpa using hnlt), List.get?_map, hn]
      rfl

/-- C6 witness: a one-contest ballot whose branch creation succeeds
reaches the receipt with its single branch pushed. -/
theorem receipt_only_after_all_pushes_witness :
    (acceptBallot "CVRs" (fun _ _ => "9a8b7c6d5e") (fun _ _ => AttemptOutcome.ok)
        ["0001"]).failed = false ∧
    (acceptBallot "CVRs" (fun _ _ => "9a8b7c6d5e") (fun _ _ => AttemptOutcome.ok)
        ["0001"]).branches.length = 1 :=
  ⟨(receipt_only_after_all_pushes "CVRs" (fun _ _ => "9a8b7c6d5e")
      (fun _ _ => AttemptOutcome.ok) ["0001"] (by decide)).1,
   (receipt_only_after_all_pushes "CVRs" (fun _ _ => "9a8b7c6d5e")
      (fun _ _ => AttemptOutcome.ok) ["0001"] (by decide)).2.1⟩

/-- A non-degraded pool: every uid of the ballot is present with at
least `BALLOT_RECEIPT_ROWS` entries. -/
theorem skip_receipt_false_spec (contest_receipts : List (String × String))
    (unmerged_cvrs : String → Option (List String)) (rows : Nat)
    (h : skip_receipt contest_receipts unmerged_cvrs rows = false) :
    ∀ p ∈ contest_receipts, ∃ l, unmerged_cvrs p.1 = some l ∧ rows ≤ l.length := by
  intro p hp
  have hpred := List.any_eq_false.mp h p hp
  cases hu : unmerged_cvrs p.1 with
  | none => rw [hu] at hpred; simp at hpred
  | some l =>
    rw [hu] at hpred
    simp at hpred
    exact ⟨l, rfl, hpred⟩

/-- Indexing the data rows of the receipt. -/
theorem inner_loop_get? (contest_receipts : List (String × String))
    (unmerged_cvrs : String → Option (List String))
    (voters_row rows r : Nat) (hr : r < rows) :
    (inner_loop contest_receipts unmerged_cvrs voters_row rows).get? r
      = some (receiptRow contest_receipts unmerged_cvrs voters_row r) := by
  unfold inner_loop
  rw [List.get?_map, List.get?_range hr]
  rfl

/-- Over a pool deep enough for the row bounds, every non-voter-row
cell is an actual digest (no sentinel, no index error). -/
theorem receiptCell_digest (unmerged_cvrs : String → Option (List String))
    (rows voters_row r : Nat) (uid d : String) (l : List String)
    (hl : unmerged_cvrs uid = some l) (hlen : rows ≤ l.length)
    (hr : r < rows) (h2 : voters_row ≤ rows) :
    ∃ x, receiptCell unmerged_cvrs voters_row r uid d = Cell.digest x := by
  have hrl : r < l.length := lt_of_lt_of_le hr hlen
  have hvl : voters_row - 1 < l.length := by omega
  unfold receiptCell
  rw [hl]
  dsimp only
  rw [if_neg (by omega), List.get?_eq_get hrl]
  dsimp only
  by_cases hcol : d = l.get ⟨r, hrl⟩
  · rw [if_pos hcol, if_neg (by omega), List.get?_eq_get hvl]
    exact ⟨l.get ⟨voters_row - 1, hvl⟩, rfl⟩
  · rw [if_neg hcol]
    exact ⟨l.get ⟨r, hrl⟩, rfl⟩

/-- Over a duplicate-free pool (the pending pool lists the digests of
pairwise-distinct commits), a non-voter-row cell is never the voter's
own digest: a pool collision is substituted with the pool digest of
the voter's row position, which is a different pool element. -/
theorem receiptCell_ne_voter (unmerged_cvrs : String → Option (List String))
    (rows voters_row r : Nat) (uid d : String) (l : List String)
    (hl : unmerged_cvrs uid = some l) (hlen : rows ≤ l.length)
    (hr : r < rows) (h1 : 1 ≤ voters_row) (h2 : voters_row ≤ rows)
    (hner : r ≠ voters_row - 1) (hnd : l.Nodup) :
    ∃ x, receiptCell unmerged_cvrs voters_row r uid d = Cell.digest x ∧ x ≠ d := by
  have hrl : r < l.length := lt_of_lt_of_le hr hlen
  have hvl : voters_row - 1 < l.length := by omega
  unfold receiptCell
  rw [hl]
  dsimp only
  rw [if_neg (by omega), List.get?_eq_get hrl]
  dsimp only
  by_cases hcol : d = l.get ⟨r, hrl⟩
  · rw [if_pos hcol, if_neg (by omega), List.get?_eq_get hvl]
    refine ⟨l.get ⟨voters_row - 1, hvl⟩, rfl, ?_⟩
    intro hx
    rw [hcol] at hx
    have heq := (hnd.get_inj_iff).mp hx
    have : voters_row - 1 = r := by
      simpa using congrArg Fin.val heq
    omega
  · rw [if_neg hcol]
    exact ⟨l.get ⟨r, hrl⟩, rfl, fun hx => hcol hx.symm⟩

/-- The data row at the voter's position carries exactly the voter's
digests, in column order. -/
theorem receiptRow_voter (contest_receipts : List (String × String))
    (unmerged_cvrs : String → Option (List String)) (voters_row : Nat) :
    receiptRow contest_receipts unmerged_cvrs voters_row (voters_row - 1)
      = contest_receipts.map (fun p => Cell.digest p.2) := by
  unfold receiptRow
  rw [if_pos rfl]

/-- C10: a receipt actually returned by `create_ballot_receipt` (the
non-degraded case) contains no `INSUFFICIENT_CVRS` sentinel in any
cell: every cell of every data row is an actual digest.  The
hypothesis on `voters_row` reflects `random.randint(1,
BALLOT_RECEIPT_ROWS)`. -/
theorem receipt_never_insufficient (contest_receipts : List (String × String))
    (unmerged_cvrs : String → Option (List String))
    (rows voters_row : Nat) (receipt_file : String)
    (hskip : skip_receipt contest_receipts unmerged_cvrs rows = false)
    (h2 : voters_row ≤ rows) :
    ∀ row ∈ (create_ballot_receipt contest_receipts unmerged_cvrs rows
        voters_row receipt_file).1,
      ∀ c ∈ row, (∃ d, c = Cell.digest d) ∧ c ≠ Cell.insufficient := by
  intro row hrow c hc
  unfold create_ballot_receipt at hrow
  rw [if_neg (by simp [hskip])] at hrow
  unfold inner_loop at hrow
  obtain ⟨r, hrmem, hrEq⟩ := List.mem_map.mp hrow
  have hrlt : r < rows := List.mem_range.mp hrmem
  rw [← hrEq] at hc
  unfold receiptRow at hc
  by_cases hv : r = voters_row - 1
  · rw [if_pos hv] at hc
    obtain ⟨p, hp, hpc⟩ := List.mem_map.mp hc
    refine ⟨⟨p.2, hpc.symm⟩, ?_⟩
    rw [← hpc]
    exact fun hz => Cell.noConfusion hz
  · rw [if_neg hv] at hc
    obtain ⟨p, hp, hpc⟩ := List.mem_map.mp hc
    obtain ⟨l, hl, hlen⟩ := skip_receipt_false_spec _ _ _ hskip p hp
    obtain ⟨x, hx⟩ := receiptCell_digest unmerged_cvrs rows voters_row r p.1 p.2 l
      hl hlen hrlt h2
    rw [← hpc, hx]
    exact ⟨⟨x, rfl⟩, fun hz => Cell.noConfusion hz⟩

/-- C10 witness: in the concrete three-row receipt every cell of the
first data row is a digest. -/
theorem receipt_never_insufficient_witness :
    (∃ d, Cell.digest "a1" = Cell.digest d) ∧ Cell.digest "a1" ≠ Cell.insufficient :=
  receipt_never_insufficient [("A", "dA")]
    (fun u => if u = "A" then some ["a1", "a2", "a3"] else none) 3 2 "f.csv"
    (by decide) (by decide) [Cell.digest "a1"] (by decide) (Cell.digest "a1") (by decide)

/-- C1: in a receipt produced with a non-degraded pool, the data row
at 1-based index `voters_row` equals the voter's digest tuple in every
column, no other data row equals that tuple, and no cell of any other
row equals the voter's digest for its column.  Hypotheses reflect the
run context: `voters_row` comes from `random.randint(1,
BALLOT_RECEIPT_ROWS)`; a cast ballot carries at least one contest; and
each uid's pending pool lists the digests of pairwise-distinct git
commits, so it is duplicate-free. -/
theorem receipt_exactly_one_voter_row (contest_receipts : List (String × String))
    (unmerged_cvrs : String → Option (List String))
    (rows voters_row : Nat) (receipt_file : String)
    (hskip : skip_receipt contest_receipts unmerged_cvrs rows = false)
    (h1 : 1 ≤ voters_row) (h2 : voters_row ≤ rows)
    (hne : contest_receipts ≠ [])
    (hnd : ∀ uid l, unmerged_cvrs uid = some l → l.Nodup) :
    (∀ r, r < rows →
      (((create_ballot_receipt contest_receipts unmerged_cvrs rows voters_row
          receipt_file).1).get? r
        = some (contest_receipts.map (fun p => Cell.digest p.2))
        ↔ r = voters_row - 1)) ∧
    (∀ r i uid d rowCells, r < rows → r ≠ voters_row - 1 →
      contest_receipts.get? i = some (uid, d) →
      ((create_ballot_receipt contest_receipts unmerged_cvrs rows voters_row
          receipt_file).1).get? r = some rowCells →
      rowCells.get? i ≠ some (Cell.digest d)) := by
  have hres : (create_ballot_receipt contest_receipts unmerged_cvrs rows voters_row
      receipt_file).1 = inner_loop contest_receipts unmerged_cvrs voters_row rows := by
    unfold create_ballot_receipt
    rw [if_neg (by simp [hskip])]
  constructor
  · intro r hr
    rw [hres, inner_loop_get? _ _ _ _ _ hr]
    constructor
    · intro hrow
      by_contra hner
      obtain ⟨p, tl, hcr⟩ := List.exists_cons_of_ne_nil hne
      obtain ⟨l, hl, hlen⟩ := skip_receipt_false_spec _ _ _ hskip p
        (by rw [hcr]; exact List.mem_cons_self p tl)
      obtain ⟨x, hx, hxd⟩ := receiptCell_ne_voter unmerged_cvrs rows voters_row r
        p.1 p.2 l hl hlen hr h1 h2 hner (hnd p.1 l hl)
      have hrow2 : receiptRow contest_receipts unmerged_cvrs voters_row r
          = contest_receipts.map (fun p => Cell.digest p.2) := by
        simpa using hrow
      unfold receiptRow at hrow2
      rw [if_neg hner, hcr] at hrow2
      simp only [List.map_cons, List.cons.injEq] at hrow2
      exact hxd (by rw [← hx.symm] at hrow2; exact Cell.digest.inj (hx ▸ hrow2.1))
    · intro hr2
      rw [hr2, receiptRow_voter]
  · intro r i uid d rowCells hr hner hget hrowEq
    rw [hres, inner_loop_get? _ _ _ _ _ hr] at hrowEq
    have hrow2 : rowCells = receiptRow contest_receipts unmerged_cvrs voters_row r := by
      simpa using hrowEq.symm
    have hmem : (uid, d) ∈ contest_receipts := by
      exact List.get?_mem hget
    obtain ⟨l, hl, hlen⟩ := skip_receipt_false_spec _ _ _ hskip (uid, d) hmem
    obtain ⟨x, hx, hxd⟩ := receiptCell_ne_voter unmerged_cvrs rows voters_row r
      uid d l hl hlen hr h1 h2 hner (hnd uid l hl)
    rw [hrow2]
    unfold receiptRow
    rw [if_neg hner, List.get?_map, hget]
    intro hcell
    injection hcell with hcell2
    have hcell3 : receiptCell unmerged_cvrs voters_row r uid d = Cell.digest d := hcell2
    rw [hx] at hcell3
    exact hxd (Cell.digest.inj hcell3)

/-- C1 witness: in the concrete three-row receipt with `voters_row = 2`,
the second data row is exactly the voter's digest tuple. -/
theorem receipt_exactly_one_voter_row_witness :
    ((create_ballot_receipt [("A", "dA")]
        (fun u => if u = "A" then some ["a1", "a2", "a3"] else none)
        3 2 "f.csv").1).get? 1 = some [Cell.digest "dA"] :=
  ((receipt_exactly_one_voter_row [("A", "dA")]
      (fun u => if u = "A" then some ["a1", "a2", "a3"] else none) 3 2 "f.csv"
      (by decide) (by decide) (by decide) (by decide)
      (by
        intro uid l h
        have h2 : (if uid = "A" then some ["a1", "a2", "a3"] else none) = some l := h
        split at h2
        · injection h2 with h3
          rw [← h3]
          decide
        · exact Option.noConfusion h2)).1 1 (by decide)).mpr rfl

end VTP
